import Mathlib

/-!
Shallow embedding of the PawGuard claims-adjudication and fund engine
(contracts/PawPool.sol, contracts/JuryIdentity.sol and the
VeterinarianCredential contract) together with theorems checking the
specification's claims against it.

Machine integers: all Solidity `uint256` arithmetic in the modelled code
either is guarded against underflow by an explicit `require`, or cannot
overflow on any execution that completes (Solidity 0.8 reverts on wrap);
we therefore model `uint256` as `Nat`, matching every completed execution.
`address` is modelled as `Nat` with `0` playing the role of `address(0)`;
`bytes32` identity hashes are modelled as `Nat`.  ERC-20 token balances are
modelled as total maps `Address → Nat`; `transfer`/`transferFrom` fail
exactly when the source balance is insufficient (the two tokens are stock
OpenZeppelin ERC-20s with no fees or hooks; allowances are assumed granted,
an insufficient allowance simply being one more way the same `require`
fails).  A reverting call is an `Except.error`: the caller observes the
error and no state, which is Solidity's all-or-nothing revert semantics.
-/

namespace PawGuard

abbrev Address := Nat

abbrev IdHash := Nat

/-- The PawPool contract's own address (`address(this)`), holder of the
pooled GUARD and of the staked PAW. -/
def poolAddr : Address := 1000

/-- Error kinds, one per distinct `require` site in the modelled code. -/
inductive Err where
  | notOwner
  | petNotFound
  | insufficientPremium
  | guardTransferFailed
  | vetNotAuthorized
  | invalidCredential
  | emptyDiagnosis
  | zeroPayout
  | feeTransferFailed
  | claimNotPending
  | notEnoughStakers
  | notEnoughEligible
  | claimNotInReview
  | votingEnded
  | notJuror
  | alreadyVoted
  | votingNotEnded
  | claimNotApproved
  | insufficientGuardInPool
  | payoutTransferFailed
  | pawRewardFailed
  | zeroStake
  | pawTransferFailed
  | insufficientStake
  | notAuthorized
  | memberNotRegistered
  | duplicateIdentity
  | alreadyVotedOnClaim
  | credentialNotFound
deriving DecidableEq, Repr

/-- Balance map of one ERC-20 token. -/
abbrev Balances := Address → Nat

/-- OpenZeppelin `_transfer`: revert (`none`) iff the source balance is
insufficient, else subtract at `src` and add at `dst`. -/
def transferBal (bal : Balances) (src dst : Address) (amt : Nat) : Option Balances :=
  if bal src < amt then none
  else
    let b1 : Balances := fun a => if a = src then bal src - amt else bal a
    some (fun a => if a = dst then b1 a + amt else b1 a)

/-! ## JuryIdentity (the Eligibility Registry) -/

inductive JuryStatus where
  | Unverified
  | Verified
  | Suspended
  | Banned
deriving DecidableEq, Repr

/-- `struct SybilCheckpoint` of JuryIdentity.sol. -/
structure SybilCheckpoint where
  identityHash : IdHash
  timestamp : Nat
  verifier : Address
  passed : Bool
deriving DecidableEq, Repr

/-- `struct ReputationEvent` of JuryIdentity.sol. -/
structure ReputationEvent where
  timestamp : Nat
  scoreChange : Int
  reason : String
  updatedBy : Address
deriving DecidableEq, Repr

/-- `struct JuryMember` of JuryIdentity.sol. -/
structure JuryMember where
  did : String
  memberAddress : Address
  identityProofIPFSHash : String
  status : JuryStatus
  registrationDate : Nat
  reputationScore : Nat
  totalVotes : Nat
  consistentVotes : Nat
  lastVoteTimestamp : Nat
  isActive : Bool
  stakingAmount : Nat
  participatedClaims : List Nat
deriving DecidableEq, Repr

/-- Storage of the JuryIdentity contract.  A mapping entry equal to the
all-zero default struct (`memberAddress == address(0)`, i.e. unregistered)
is modelled as `none`. -/
structure JuryState where
  contractOwner : Address
  juryMembers : Address → Option JuryMember
  sybilChecks : Address → List SybilCheckpoint
  reputationHistory : Address → List ReputationEvent
  usedIdentityHashes : IdHash → Bool
  hasVotedOnClaim : Address → Nat → Bool
  isVerifier : Address → Bool
  minimumReputationForJury : Nat
  minimumStakeForJury : Nat
  inactivityPenaltyPeriod : Nat

/-- Point update of the member table. -/
def JuryState.setMember (js : JuryState) (a : Address) (m : JuryMember) : JuryState :=
  { js with juryMembers := fun x => if x = a then some m else js.juryMembers x }

/-- `_updateReputation` of JuryIdentity.sol: clamp the new score to
[0, 1000] and append a history event.  `updatedBy` is `msg.sender` of the
enclosing external call. -/
def updateReputationInternal (js : JuryState) (member : Address) (scoreChange : Int)
    (reason : String) (updatedBy : Address) (now : Nat) : Except Err JuryState :=
  match js.juryMembers member with
  | none => .error .memberNotRegistered
  | some m =>
    let newScore0 : Int := (m.reputationScore : Int) + scoreChange
    let newScore1 : Int := if newScore0 < 0 then 0 else newScore0
    let newScore2 : Int := if newScore1 > 1000 then 1000 else newScore1
    let js1 := js.setMember member { m with reputationScore := newScore2.toNat }
    .ok { js1 with reputationHistory := fun a =>
            if a = member then
              js.reputationHistory a ++ [⟨now, scoreChange, reason, updatedBy⟩]
            else js.reputationHistory a }

/-- `performSybilCheck` of JuryIdentity.sol. -/
def performSybilCheck (js : JuryState) (caller member : Address) (identityHash : IdHash)
    (passed : Bool) (now : Nat) : Except Err JuryState :=
  if ¬ (js.isVerifier caller = true ∨ caller = js.contractOwner) then .error .notAuthorized
  else match js.juryMembers member with
  | none => .error .memberNotRegistered
  | some m =>
    if passed = true ∧ js.usedIdentityHashes identityHash = true ∧ js.sybilChecks member = [] then
      .error .duplicateIdentity
    else
      let used1 : IdHash → Bool :=
        if passed then (fun h => if h = identityHash then true else js.usedIdentityHashes h)
        else js.usedIdentityHashes
      let js1 := { js with
        usedIdentityHashes := used1,
        sybilChecks := fun a =>
          if a = member then js.sybilChecks a ++ [⟨identityHash, now, caller, passed⟩]
          else js.sybilChecks a }
      if passed = true ∧ m.status = .Unverified then
        .ok (js1.setMember member { m with status := .Verified })
      else
        .ok js1

/-- `isEligibleForJury` of JuryIdentity.sol. -/
def isEligibleForJury (js : JuryState) (member : Address) (now : Nat) : Bool :=
  match js.juryMembers member with
  | none => false
  | some m =>
    if m.status ≠ .Verified then false
    else if m.isActive = false then false
    else if m.reputationScore < js.minimumReputationForJury then false
    else if m.stakingAmount < js.minimumStakeForJury then false
    else if 0 < m.lastVoteTimestamp ∧ m.lastVoteTimestamp + js.inactivityPenaltyPeriod < now then
      false
    else true

/-- `updateStake` of JuryIdentity.sol.  The function is `external` and has
no authorization check; `caller` (`msg.sender`) is taken but unused, exactly
as in the source. -/
def updateStake (js : JuryState) (caller member : Address) (newAmount : Nat) :
    Except Err JuryState :=
  match js.juryMembers member with
  | none => .error .memberNotRegistered
  | some m => .ok (js.setMember member { m with stakingAmount := newAmount })

/-- `recordVote` of JuryIdentity.sol.  `caller` is `msg.sender`; it is used
only as the `updatedBy` field of the reputation-history event. -/
def recordVote (js : JuryState) (caller member : Address) (claimId : Nat)
    (votedWithMajority : Bool) (now : Nat) : Except Err JuryState :=
  match js.juryMembers member with
  | none => .error .memberNotRegistered
  | some m =>
    if js.hasVotedOnClaim member claimId then .error .alreadyVotedOnClaim
    else
      let m1 := { m with
        totalVotes := m.totalVotes + 1,
        lastVoteTimestamp := now,
        participatedClaims := m.participatedClaims ++ [claimId] }
      let js1 := { js.setMember member m1 with
        hasVotedOnClaim := fun a i =>
          if a = member ∧ i = claimId then true else js.hasVotedOnClaim a i }
      if votedWithMajority then
        let js2 := js1.setMember member { m1 with consistentVotes := m1.consistentVotes + 1 }
        updateReputationInternal js2 member 5 "Voted with majority" caller now
      else
        updateReputationInternal js1 member (-2) "Voted against majority" caller now

/-! ## VeterinarianCredential (the Credential Registry) -/

inductive CredStatus where
  | Active
  | Suspended
  | Revoked
  | Expired
deriving DecidableEq, Repr

/-- `struct Credential` of VeterinarianCredential.sol (proof/IPFS fields
that no modelled operation reads are omitted). -/
structure Credential where
  did : String
  vetAddress : Address
  licenseNumber : String
  issuanceDate : Nat
  expirationDate : Nat
  status : CredStatus
  issuer : Address
  reputationScore : Nat
  totalRecordsIssued : Nat
  totalClaimsApproved : Nat
deriving DecidableEq, Repr

/-- Storage of the VeterinarianCredential contract (credential table only;
`none` is the unset default struct). -/
structure VetState where
  credentials : Address → Option Credential

def VetState.setCredential (vs : VetState) (a : Address) (c : Credential) : VetState :=
  { vs with credentials := fun x => if x = a then some c else vs.credentials x }

/-- `isValidCredential` of VeterinarianCredential.sol. -/
def isValidCredential (vs : VetState) (vet : Address) (now : Nat) : Bool :=
  match vs.credentials vet with
  | none => false
  | some c =>
    if c.status ≠ .Active then false
    else if c.expirationDate ≤ now then false
    else true

/-- `incrementRecordsIssued` of VeterinarianCredential.sol: bump the
counter and add +1 reputation only while the score is below 1000. -/
def incrementRecordsIssued (vs : VetState) (vet : Address) : Except Err VetState :=
  match vs.credentials vet with
  | none => .error .credentialNotFound
  | some c =>
    let c1 := { c with totalRecordsIssued := c.totalRecordsIssued + 1 }
    let c2 := if c1.reputationScore < 1000
              then { c1 with reputationScore := c1.reputationScore + 1 } else c1
    .ok (vs.setCredential vet c2)

/-- `incrementClaimsApproved` of VeterinarianCredential.sol: bump the
counter and add +2 reputation whenever the score is below 1000 (note: the
guard is `< 1000`, not a clamp). -/
def incrementClaimsApproved (vs : VetState) (vet : Address) : Except Err VetState :=
  match vs.credentials vet with
  | none => .error .credentialNotFound
  | some c =>
    let c1 := { c with totalClaimsApproved := c.totalClaimsApproved + 1 }
    let c2 := if c1.reputationScore < 1000
              then { c1 with reputationScore := c1.reputationScore + 2 } else c1
    .ok (vs.setCredential vet c2)

/-! ## PawPool (Claims State Machine, Risk & Premium Calculator, Fund Ledger) -/

inductive ClaimStatus where
  | Pending
  | InReview
  | Approved
  | Rejected
  | Refunded
deriving DecidableEq, Repr

/-- `struct Claim` of PawPool.sol. -/
structure ClaimRec where
  petId : Nat
  owner : Address
  treatingVet : Address
  vetDiagnosisIPFSHash : String
  submissionTimestamp : Nat
  requestedPayoutAmount : Nat
  status : ClaimStatus
  juryMembers : List Address
  approveVotes : Nat
  rejectVotes : Nat
  payoutAddresses : List Address
  payoutAmounts : List Nat
deriving DecidableEq, Repr

/-- The all-zero default of a Solidity `Claim` storage slot.  Solidity
mappings have no existence bit, so `claims` below is a total map into
`ClaimRec` with this default, exactly like the source's
`mapping(uint256 => Claim)`. -/
def emptyClaim : ClaimRec :=
  { petId := 0, owner := 0, treatingVet := 0, vetDiagnosisIPFSHash := "",
    submissionTimestamp := 0, requestedPayoutAmount := 0, status := .Pending,
    juryMembers := [], approveVotes := 0, rejectVotes := 0,
    payoutAddresses := [], payoutAmounts := [] }

/-- Read-only view of the external PetNFT collaborator: pet owner
(`address(0)` when the pet does not exist), medical-history length and the
per-pet authorized-vet relation. -/
structure PetData where
  petOwner : Nat → Address
  medicalHistoryLength : Nat → Nat
  authorizedVet : Nat → Address → Bool

/-- Storage of the PawPool contract. -/
structure PoolState where
  poolOwner : Address
  basePremium : Nat
  claimSubmissionFee : Nat
  juryVotingPeriod : Nat
  immediatePayoutPool : Nat
  stableYieldPool : Nat
  riskReservePool : Nat
  claimIdCounter : Nat
  claims : Nat → ClaimRec
  claimHasVoted : Nat → Address → Bool
  claimVoteApproved : Nat → Address → Bool
  pawStakes : Address → Nat
  stakers : List Address

def PoolState.setClaim (p : PoolState) (cid : Nat) (c : ClaimRec) : PoolState :=
  { p with claims := fun i => if i = cid then c else p.claims i }

/-- `REQUIRED_JURY_VOTES` of PawPool.sol. -/
def REQUIRED_JURY_VOTES : Nat := 21

/-- `PAW_REWARD_PER_JUROR` of PawPool.sol. -/
def PAW_REWARD_PER_JUROR : Nat := 5 * 10 ^ 18

/-- The whole on-chain state the engine touches: the three contracts'
storage, the PetNFT read model and the two token-balance maps. -/
structure SysState where
  pets : PetData
  vet : VetState
  jury : JuryState
  pool : PoolState
  guard : Balances
  paw : Balances

/-- `_calculateRiskScore` of PawPool.sol: `100 + 10 × historyLength`. -/
def calculateRiskScore (s : SysState) (petId : Nat) : Nat :=
  100 + s.pets.medicalHistoryLength petId * 10

/-- `getPetPremium` of PawPool.sol (its `require(owner != address(0))` is
inlined at the call site in `payPremium`). -/
def getPetPremium (s : SysState) (petId : Nat) : Nat :=
  s.pool.basePremium * calculateRiskScore s petId / 100

/-- `payPremium` of PawPool.sol: owner-only, amount at least the computed
premium, pull the GUARD, then split 30/60/10 with the division remainder
going to the risk-reserve bucket. -/
def payPremium (s : SysState) (caller : Address) (petId amount : Nat) :
    Except Err SysState :=
  if s.pets.petOwner petId ≠ caller then .error .notOwner
  else if s.pets.petOwner petId = 0 then .error .petNotFound
  else if amount < getPetPremium s petId then .error .insufficientPremium
  else match transferBal s.guard caller poolAddr amount with
  | none => .error .guardTransferFailed
  | some g =>
    let immediate := amount * 30 / 100
    let stable := amount * 60 / 100
    let risk := amount - immediate - stable
    .ok { s with
          guard := g,
          pool := { s.pool with
            immediatePayoutPool := s.pool.immediatePayoutPool + immediate,
            stableYieldPool := s.pool.stableYieldPool + stable,
            riskReservePool := s.pool.riskReservePool + risk } }

/-- `submitClaim` of PawPool.sol. -/
def submitClaim (s : SysState) (caller : Address) (petId : Nat) (vetAddr : Address)
    (diagnosisHash : String) (requested : Nat) (now : Nat) : Except Err SysState :=
  if s.pets.petOwner petId ≠ caller then .error .notOwner
  else if s.pets.authorizedVet petId vetAddr = false then .error .vetNotAuthorized
  else if isValidCredential s.vet vetAddr now = false then .error .invalidCredential
  else if diagnosisHash.length = 0 then .error .emptyDiagnosis
  else if requested = 0 then .error .zeroPayout
  else match transferBal s.guard caller poolAddr s.pool.claimSubmissionFee with
  | none => .error .feeTransferFailed
  | some g =>
    let newId := s.pool.claimIdCounter + 1
    let c0 := s.pool.claims newId
    let c1 := { c0 with
      petId := petId, owner := caller, treatingVet := vetAddr,
      vetDiagnosisIPFSHash := diagnosisHash, submissionTimestamp := now,
      requestedPayoutAmount := requested, status := .Pending,
      approveVotes := 0, rejectVotes := 0 }
    .ok { s with
          guard := g,
          pool := { (s.pool.setClaim newId c1) with claimIdCounter := newId } }

/-- `selectJury` of PawPool.sol: owner-only; filter the staker list through
`isEligibleForJury` and freeze the first 21 eligible stakers as the panel. -/
def selectJury (s : SysState) (caller : Address) (cid : Nat) (now : Nat) :
    Except Err SysState :=
  if caller ≠ s.pool.poolOwner then .error .notAuthorized
  else
    let c := s.pool.claims cid
    if c.status ≠ .Pending then .error .claimNotPending
    else if s.pool.stakers.length < REQUIRED_JURY_VOTES then .error .notEnoughStakers
    else
      let eligible := s.pool.stakers.filter (fun a => isEligibleForJury s.jury a now)
      if eligible.length < REQUIRED_JURY_VOTES then .error .notEnoughEligible
      else
        let c1 := { c with
          juryMembers := c.juryMembers ++ eligible.take REQUIRED_JURY_VOTES,
          status := .InReview }
        .ok { s with pool := s.pool.setClaim cid c1 }

/-- The PAW-reward loop at the end of `_processPayout`: transfer
`PAW_REWARD_PER_JUROR` to every juror whose recorded vote was approve. -/
def payPawRewards (s : SysState) (cid : Nat) : List Address → Except Err SysState
  | [] => .ok s
  | j :: rest =>
    if s.pool.claimVoteApproved cid j then
      match transferBal s.paw poolAddr j PAW_REWARD_PER_JUROR with
      | none => .error .pawRewardFailed
      | some p => payPawRewards { s with paw := p } cid rest
    else payPawRewards s cid rest

/-- `_processPayout` of PawPool.sol: requires Approved status and a
sufficient GUARD *token balance* of the pool contract; sends
`⌊80%⌋` of the requested amount to the treating vet and the remainder to
the claim owner, records the payout legs, notifies the credential registry
and pays the PAW rewards. -/
def processPayout (s : SysState) (cid : Nat) : Except Err SysState :=
  let c := s.pool.claims cid
  if c.status ≠ .Approved then .error .claimNotApproved
  else
    let totalPayout := c.requestedPayoutAmount
    if s.guard poolAddr < totalPayout then .error .insufficientGuardInPool
    else
      let payoutToVet := totalPayout * 80 / 100
      let payoutToOwner := totalPayout - payoutToVet
      match transferBal s.guard poolAddr c.treatingVet payoutToVet with
      | none => .error .payoutTransferFailed
      | some g1 =>
      match transferBal g1 poolAddr c.owner payoutToOwner with
      | none => .error .payoutTransferFailed
      | some g2 =>
        let c1 := { c with
          payoutAddresses := c.payoutAddresses ++ [c.treatingVet, c.owner],
          payoutAmounts := c.payoutAmounts ++ [payoutToVet, payoutToOwner] }
        let s1 := { s with guard := g2, pool := s.pool.setClaim cid c1 }
        match incrementClaimsApproved s1.vet c.treatingVet with
        | .error e => .error e
        | .ok v1 => payPawRewards { s1 with vet := v1 } cid c1.juryMembers

/-- `_evaluateClaim` of PawPool.sol: no-op while the panel is short of
votes inside the window; otherwise apply the 2/3 super-majority rule
`approve*3 > (approve+reject)*2` over the votes cast, paying out on
approval. -/
def evaluateClaim (s : SysState) (cid : Nat) (now : Nat) : Except Err SysState :=
  let c := s.pool.claims cid
  if c.status ≠ .InReview then .error .claimNotInReview
  else if c.approveVotes + c.rejectVotes < REQUIRED_JURY_VOTES ∧
          now ≤ c.submissionTimestamp + s.pool.juryVotingPeriod then
    .ok s
  else if c.approveVotes * 3 > (c.approveVotes + c.rejectVotes) * 2 then
    processPayout { s with pool := s.pool.setClaim cid { c with status := .Approved } } cid
  else
    .ok { s with pool := s.pool.setClaim cid { c with status := .Rejected } }

/-- `voteOnClaim` of PawPool.sol: only an InReview claim, inside the
window, by a frozen panel member who has not voted yet; the vote that
brings the tally to the full panel size triggers `_evaluateClaim`. -/
def voteOnClaim (s : SysState) (caller : Address) (cid : Nat) (approved : Bool)
    (now : Nat) : Except Err SysState :=
  let c := s.pool.claims cid
  if c.status ≠ .InReview then .error .claimNotInReview
  else if ¬ now ≤ c.submissionTimestamp + s.pool.juryVotingPeriod then .error .votingEnded
  else if caller ∉ c.juryMembers then .error .notJuror
  else if s.pool.claimHasVoted cid caller then .error .alreadyVoted
  else
    let c1 := if approved then { c with approveVotes := c.approveVotes + 1 }
              else { c with rejectVotes := c.rejectVotes + 1 }
    let pool1 := { s.pool.setClaim cid c1 with
      claimHasVoted := fun i a =>
        if i = cid ∧ a = caller then true else s.pool.claimHasVoted i a,
      claimVoteApproved := fun i a =>
        if i = cid ∧ a = caller then approved else s.pool.claimVoteApproved i a }
    let s1 := { s with pool := pool1 }
    if c1.approveVotes + c1.rejectVotes = REQUIRED_JURY_VOTES then
      evaluateClaim s1 cid now
    else .ok s1

/-- The vote-feedback loop of `finalizeClaimVoting`: for every panel member
who cast a vote, call the registry's `recordVote` with
`votedWithMajority = (their vote == the final outcome)`.  `msg.sender` of
those registry calls is the PawPool contract itself. -/
def recordVotesLoop (s : SysState) (cid : Nat) (claimApproved : Bool) (now : Nat) :
    List Address → Except Err SysState
  | [] => .ok s
  | j :: rest =>
    if s.pool.claimHasVoted cid j then
      let votedWithMajority := s.pool.claimVoteApproved cid j = claimApproved
      match recordVote s.jury poolAddr j cid votedWithMajority now with
      | .error e => .error e
      | .ok jr => recordVotesLoop { s with jury := jr } cid claimApproved now rest
    else recordVotesLoop s cid claimApproved now rest

/-- `finalizeClaimVoting` of PawPool.sol: anyone may call it once the
voting window has elapsed on an InReview claim; it evaluates the claim and
then feeds every cast vote back into the JuryIdentity registry. -/
def finalizeClaimVoting (s : SysState) (caller : Address) (cid : Nat) (now : Nat) :
    Except Err SysState :=
  let c := s.pool.claims cid
  if c.status ≠ .InReview then .error .claimNotInReview
  else if ¬ c.submissionTimestamp + s.pool.juryVotingPeriod < now then .error .votingNotEnded
  else match evaluateClaim s cid now with
  | .error e => .error e
  | .ok s1 =>
    let c1 := s1.pool.claims cid
    recordVotesLoop s1 cid (c1.status = .Approved) now c1.juryMembers

/-- `stakePaw` of PawPool.sol: pull the PAW, append a first-time staker to
the staker list, and push the new total to the JuryIdentity registry. -/
def stakePaw (s : SysState) (caller : Address) (amount : Nat) : Except Err SysState :=
  if amount = 0 then .error .zeroStake
  else match transferBal s.paw caller poolAddr amount with
  | none => .error .pawTransferFailed
  | some p =>
    let stakers1 := if s.pool.pawStakes caller = 0 then s.pool.stakers ++ [caller]
                    else s.pool.stakers
    let newStake := s.pool.pawStakes caller + amount
    let pool1 := { s.pool with
      stakers := stakers1,
      pawStakes := fun a => if a = caller then newStake else s.pool.pawStakes a }
    match updateStake s.jury poolAddr caller newStake with
    | .error e => .error e
    | .ok jr => .ok { s with paw := p, pool := pool1, jury := jr }

/-- The index-swap removal of `unstakePaw`: overwrite the first occurrence
with the last element and pop. -/
def removeStakerSwap (l : List Address) (x : Address) : List Address :=
  match l.findIdx? (fun a => a = x) with
  | none => l
  | some i => (l.set i (l.getLast?.getD 0)).dropLast

/-- `unstakePaw` of PawPool.sol. -/
def unstakePaw (s : SysState) (caller : Address) (amount : Nat) : Except Err SysState :=
  if amount = 0 then .error .zeroStake
  else if s.pool.pawStakes caller < amount then .error .insufficientStake
  else
    let newStake := s.pool.pawStakes caller - amount
    let stakers1 := if newStake = 0 then removeStakerSwap s.pool.stakers caller
                    else s.pool.stakers
    let pool1 := { s.pool with
      stakers := stakers1,
      pawStakes := fun a => if a = caller then newStake else s.pool.pawStakes a }
    match updateStake s.jury poolAddr caller newStake with
    | .error e => .error e
    | .ok jr =>
      match transferBal s.paw poolAddr caller amount with
      | none => .error .pawTransferFailed
      | some p => .ok { s with paw := p, pool := pool1, jury := jr }

/-! ## The step relation

One step is one externally invoked operation executing to completion
(§5 of the spec: atomic, serialized).  `registryOp` over-approximates every
call that touches only the JuryIdentity / VeterinarianCredential storage
(sybil checks, direct `recordVote` / `updateStake` / reputation edits,
suspensions, credential issuance…), and `tokenOp` over-approximates token
mints, burns and transfers among outside accounts: invariants proved over
this larger relation hold a fortiori of the real system. -/

inductive Step : SysState → SysState → Prop where
  | payPremium (s s' : SysState) (caller petId amount : Nat)
      (h : payPremium s caller petId amount = .ok s') : Step s s'
  | submitClaim (s s' : SysState) (caller petId : Nat) (vetAddr : Address)
      (diagnosisHash : String) (requested now : Nat)
      (h : submitClaim s caller petId vetAddr diagnosisHash requested now = .ok s') :
      Step s s'
  | selectJury (s s' : SysState) (caller cid now : Nat)
      (h : selectJury s caller cid now = .ok s') : Step s s'
  | voteOnClaim (s s' : SysState) (caller cid : Nat) (approved : Bool) (now : Nat)
      (h : voteOnClaim s caller cid approved now = .ok s') : Step s s'
  | finalizeClaimVoting (s s' : SysState) (caller cid now : Nat)
      (h : finalizeClaimVoting s caller cid now = .ok s') : Step s s'
  | stakePaw (s s' : SysState) (caller amount : Nat)
      (h : stakePaw s caller amount = .ok s') : Step s s'
  | unstakePaw (s s' : SysState) (caller amount : Nat)
      (h : unstakePaw s caller amount = .ok s') : Step s s'
  | registryOp (s : SysState) (j' : JuryState) (v' : VetState) :
      Step s { s with jury := j', vet := v' }
  | tokenOp (s : SysState) (g' p' : Balances) :
      Step s { s with guard := g', paw := p' }

/-- Reachability: any finite sequence of steps. -/
def Reachable (s s' : SysState) : Prop := Relation.ReflTransGen Step s s'

/-! ## Derived notions used by the claim statements -/

/-- The clamp applied by `_updateReputation`: first floor at 0, then cap at
1000. -/
def clampRep (x : Int) : Nat := (if (if x < 0 then 0 else x) > 1000 then 1000 else if x < 0 then 0 else x).toNat

/-- Sum of the three named fund balances. -/
def poolSum (s : SysState) : Nat :=
  s.pool.immediatePayoutPool + s.pool.stableYieldPool + s.pool.riskReservePool

/-- The eligibility predicate exactly as the specification words it
(claim C8): registered, Verified, active, reputation and stake at their
floors, and elapsed time since the last vote strictly below the inactivity
window.  This definition follows the spec's words, for comparison with
`isEligibleForJury`, which follows the source. -/
def eligibleSpec (js : JuryState) (member : Address) (now : Nat) : Bool :=
  match js.juryMembers member with
  | none => false
  | some m =>
    decide (m.status = .Verified) && m.isActive &&
    decide (js.minimumReputationForJury ≤ m.reputationScore) &&
    decide (js.minimumStakeForJury ≤ m.stakingAmount) &&
    decide (now - m.lastVoteTimestamp < js.inactivityPenaltyPeriod)

/-! ## Concrete fixtures

Addresses: jurors are 1..21, vet 50, pet owner 51, verifier/deployer 9,
the pool contract `poolAddr = 1000`.  Configuration values are the ones
the constructors install (submission fee 10·10¹⁸, voting period 3 days =
259200 s, inactivity window 180 days = 15552000 s, reputation floor 300);
the minimum jury stake (a constructor argument) is taken as 50. -/

def mkJuror (a : Address) (st : JuryStatus) : JuryMember :=
  { did := "did:jury:" ++ toString a, memberAddress := a, identityProofIPFSHash := "ipfs",
    status := st, registrationDate := 0, reputationScore := 500,
    totalVotes := 0, consistentVotes := 0, lastVoteTimestamp := 0,
    isActive := true, stakingAmount := 100, participatedClaims := [] }

def mkCredential (a : Address) (rep : Nat) : Credential :=
  { did := "did:vet:" ++ toString a, vetAddress := a, licenseNumber := "LIC-1",
    issuanceDate := 0, expirationDate := 10 ^ 9, status := .Active, issuer := 9,
    reputationScore := rep, totalRecordsIssued := 0, totalClaimsApproved := 0 }

def baseJuryState : JuryState :=
  { contractOwner := 9, juryMembers := fun _ => none, sybilChecks := fun _ => [],
    reputationHistory := fun _ => [], usedIdentityHashes := fun _ => false,
    hasVotedOnClaim := fun _ _ => false, isVerifier := fun a => a == 9,
    minimumReputationForJury := 300, minimumStakeForJury := 50,
    inactivityPenaltyPeriod := 15552000 }

def jurors21 : List Address := (List.range 21).map (fun i => i + 1)

/-- Registry with jurors 1..21 registered and verified. -/
def c2Jury : JuryState :=
  { baseJuryState with
    juryMembers := fun a => if 1 ≤ a ∧ a ≤ 21 then some (mkJuror a .Verified) else none }

def c2Vet : VetState :=
  { credentials := fun a => if a = 50 then some (mkCredential 50 500) else none }

def c2Pets : PetData :=
  { petOwner := fun p => if p = 1 then 51 else 0,
    medicalHistoryLength := fun _ => 0,
    authorizedVet := fun p v => p == 1 && v == 50 }

/-- Claim #1 right after `selectJury`: InReview, the 21 jurors frozen as
the panel, requested payout 100, submitted at time 0. -/
def c2Claim : ClaimRec :=
  { emptyClaim with
    petId := 1, owner := 51, treatingVet := 50, vetDiagnosisIPFSHash := "QmDiag",
    submissionTimestamp := 0, requestedPayoutAmount := 100, status := .InReview,
    juryMembers := jurors21 }

def basePool : PoolState :=
  { poolOwner := 9, basePremium := 100 * 10 ^ 18, claimSubmissionFee := 10 * 10 ^ 18,
    juryVotingPeriod := 259200,
    immediatePayoutPool := 0, stableYieldPool := 0, riskReservePool := 0,
    claimIdCounter := 1, claims := fun i => if i = 1 then c2Claim else emptyClaim,
    claimHasVoted := fun _ _ => false, claimVoteApproved := fun _ _ => false,
    pawStakes := fun a => if 1 ≤ a ∧ a ≤ 21 then 100 else 0, stakers := jurors21 }

def c2State : SysState :=
  { pets := c2Pets, vet := c2Vet, jury := c2Jury, pool := basePool,
    guard := fun a => if a = poolAddr then 1000 * 10 ^ 18 else 0,
    paw := fun a => if a = poolAddr then 1000 * 10 ^ 18 else 0 }

/-- Cast a list of votes in order, stopping at the first revert. -/
def voteAll (s : SysState) (cid : Nat) (now : Nat) :
    List (Address × Bool) → Except Err SysState
  | [] => .ok s
  | (a, b) :: rest =>
    match voteOnClaim s a cid b now with
    | .error e => .error e
    | .ok s' => voteAll s' cid now rest

/-- The end-to-end scenario's ballots: jurors 1..15 approve, 16..21 reject. -/
def c2Votes : List (Address × Bool) :=
  ((List.range 15).map (fun i => (i + 1, true))) ++
  ((List.range 6).map (fun i => (i + 16, false)))

/-- Partial-turnout ballots: jurors 1..15 approve, 16..20 reject, juror 21
abstains. -/
def c2bVotes : List (Address × Bool) :=
  ((List.range 15).map (fun i => (i + 1, true))) ++
  ((List.range 5).map (fun i => (i + 16, false)))

/-- State after the 20 partial-turnout ballots. -/
def c2bVoted : SysState := ((voteAll c2State 1 5 c2bVotes).toOption).getD c2State

/-- State after `finalizeClaimVoting` on the partial-turnout scenario, one
second past the voting window. -/
def c2bFinal : SysState :=
  ((finalizeClaimVoting c2bVoted 99 1 259201).toOption).getD c2bVoted

/-- A claim under evaluation with a given tally (panel list left empty so
that the instance exercises only the majority rule). -/
def c1Claim (av rv : Nat) : ClaimRec :=
  { emptyClaim with
    owner := 51, treatingVet := 50, submissionTimestamp := 0,
    requestedPayoutAmount := 100, status := .InReview,
    approveVotes := av, rejectVotes := rv }

def c1State (av rv : Nat) : SysState :=
  { c2State with
    pool := { basePool with claims := fun i => if i = 1 then c1Claim av rv else emptyClaim } }

def c1aFinal : SysState := ((evaluateClaim (c1State 15 6) 1 5).toOption).getD (c1State 15 6)

def c1rFinal : SysState := ((evaluateClaim (c1State 14 7) 1 5).toOption).getD (c1State 14 7)

/-- Approved claim, requested 100, all three fund buckets empty, but the
pool contract holding 100 GUARD (collected, e.g., as submission fees). -/
def c4State : SysState :=
  { c2State with
    pool := { basePool with
      claims := fun i => if i = 1 then { c1Claim 15 6 with status := .Approved } else emptyClaim },
    guard := fun a => if a = poolAddr then 100 else 0 }

def c4Final : SysState := ((processPayout c4State 1).toOption).getD c4State

/-- Credential registry holding one credential whose reputation is 999
(any value ≤ 1000 is directly installable through the registry's public
`updateReputation`). -/
def c5Vet : VetState :=
  { credentials := fun a => if a = 7 then some (mkCredential 7 999) else none }

/-- Deployment-like state: one pet (id 1, owner 51), one credentialed vet
(50), empty pool, no claims. -/
def c6Init : SysState :=
  { pets := c2Pets, vet := c2Vet, jury := c2Jury,
    pool := { basePool with claims := fun _ => emptyClaim, claimIdCounter := 0 },
    guard := fun a => if a = 51 then 1000 * 10 ^ 18 else 0,
    paw := fun _ => 0 }

def c6s1 : SysState :=
  ((submitClaim c6Init 51 1 50 "QmDiag" 100 0).toOption).getD c6Init

/-- Registry with members 1 and 2 registered, both unverified, no
checkpoints yet. -/
def c7s0 : JuryState :=
  { baseJuryState with
    juryMembers := fun a => if a = 1 ∨ a = 2 then some (mkJuror a .Unverified) else none }

def c7s1 : JuryState := ((performSybilCheck c7s0 9 1 77 true 10).toOption).getD c7s0

def c7s2 : JuryState := ((performSybilCheck c7s1 9 2 88 false 11).toOption).getD c7s1

def c7s3 : JuryState := ((performSybilCheck c7s2 9 2 77 true 12).toOption).getD c7s2

/-- Member 1 last voted at time 100; at `now = 100 + 15552000` exactly the
inactivity window has elapsed. -/
def c8Jury : JuryState :=
  { baseJuryState with
    juryMembers := fun a =>
      if a = 1 then some { mkJuror 1 .Verified with lastVoteTimestamp := 100 } else none }

def c10Jury : JuryState :=
  { baseJuryState with
    juryMembers := fun a => if a = 3 then some (mkJuror 3 .Verified) else none }

/-- Registry state after a concrete direct `recordVote` call. -/
def c10Voted : JuryState := ((recordVote c10Jury 1 3 42 true 99).toOption).getD c10Jury

/-- State after a concrete successful premium payment (pet 1 has an empty
medical history, so the premium is exactly the base premium). -/
def c3Final : SysState :=
  ((payPremium c6Init 51 1 (100 * 10 ^ 18)).toOption).getD c6Init

/-- State after juror 1's approve vote on the fresh InReview claim. -/
def c9Voted : SysState := ((voteOnClaim c2State 1 1 true 5).toOption).getD c2State

/-- The vote-accounting invariant of the Claims State Machine: for every
claim id, the counted votes never exceed the number of distinct panel
members recorded as having voted (hence no member is counted twice), and a
Pending claim has no counted votes. -/
def voteInv (s : SysState) : Prop :=
  ∀ cid : Nat,
    (s.pool.claims cid).approveVotes + (s.pool.claims cid).rejectVotes ≤
      (((s.pool.claims cid).juryMembers.dedup).filter
         (fun a => s.pool.claimHasVoted cid a)).length ∧
    ((s.pool.claims cid).status = .Pending →
       (s.pool.claims cid).approveVotes + (s.pool.claims cid).rejectVotes = 0)

/-! ## Helper lemmas -/

theorem split_exact (a : Nat) :
    a * 30 / 100 + a * 60 / 100 + (a - a * 30 / 100 - a * 60 / 100) = a := by
  have h30 : a * 30 / 100 * 100 ≤ a * 30 := Nat.div_mul_le_self (a * 30) 100
  have h60 : a * 60 / 100 * 100 ≤ a * 60 := Nat.div_mul_le_self (a * 60) 100
  omega

/-- Effect of a successful `payPremium` on the three fund buckets. -/
theorem payPremium_pools (s s' : SysState) (caller : Address) (petId amount : Nat)
    (h : payPremium s caller petId amount = .ok s') :
    s'.pool.immediatePayoutPool = s.pool.immediatePayoutPool + amount * 30 / 100 ∧
    s'.pool.stableYieldPool = s.pool.stableYieldPool + amount * 60 / 100 ∧
    s'.pool.riskReservePool =
      s.pool.riskReservePool + (amount - amount * 30 / 100 - amount * 60 / 100) ∧
    poolSum s' = poolSum s + amount := by
  unfold payPremium at h
  split at h
  · exact absurd h (by simp)
  split at h
  · exact absurd h (by simp)
  split at h
  · exact absurd h (by simp)
  split at h
  · exact absurd h (by simp)
  · injection h with h
    subst h
    refine ⟨rfl, rfl, rfl, ?_⟩
    unfold poolSum
    simp only
    have := split_exact amount
    omega

/-! ## Claim C3 -/

/-- C3: every successful `payPremium(petId, amount)` moves the three fund
balances by the fixed 30/60/10 split of `amount`, with the
integer-division remainder going to the risk-reserve bucket, so the sum
`immediatePayoutPool + stableYieldPool + riskReservePool` grows by exactly
`amount`. -/
theorem C3_premium_split (s s' : SysState) (caller : Address) (petId amount : Nat)
    (h : payPremium s caller petId amount = .ok s') :
    s'.pool.immediatePayoutPool = s.pool.immediatePayoutPool + amount * 30 / 100 ∧
    s'.pool.stableYieldPool = s.pool.stableYieldPool + amount * 60 / 100 ∧
    s'.pool.riskReservePool =
      s.pool.riskReservePool + (amount - amount * 30 / 100 - amount * 60 / 100) ∧
    poolSum s' = poolSum s + amount :=
  payPremium_pools s s' caller petId amount h

/-- Witness for C3: the concrete deposit of 100·10¹⁸ from the pet owner. -/
theorem C3_premium_split_witness :
    c3Final.pool.immediatePayoutPool = c6Init.pool.immediatePayoutPool + 100 * 10 ^ 18 * 30 / 100 ∧
    c3Final.pool.stableYieldPool = c6Init.pool.stableYieldPool + 100 * 10 ^ 18 * 60 / 100 ∧
    c3Final.pool.riskReservePool = c6Init.pool.riskReservePool +
      (100 * 10 ^ 18 - 100 * 10 ^ 18 * 30 / 100 - 100 * 10 ^ 18 * 60 / 100) ∧
    poolSum c3Final = poolSum c6Init + 100 * 10 ^ 18 :=
  C3_premium_split c6Init c3Final 51 1 (100 * 10 ^ 18) rfl

/-! ## Claim C5 -/

/-- C5 (code bug): `incrementClaimsApproved` on a credential whose
reputation is 999 — a value the registry's own `updateReputation` installs
directly (it enforces only `newScore ≤ 1000`) — produces reputation 1001,
outside the documented [0, 1000] range: the `< 1000` guard does not
saturate a +2 bump at 1000. -/
theorem C5_reputation_overshoot :
    ((incrementClaimsApproved c5Vet 7).toOption.bind (fun vs => vs.credentials 7)).map
        Credential.reputationScore = some 1001 ∧ ¬ (1001 ≤ 1000) := by
  constructor
  · rfl
  · decide

/-! ## Claim C8 -/

/-- Counterexample to C8: member 1 satisfies every conjunct except the
spec's activity clause — exactly the whole inactivity window has elapsed
since their last vote, so "elapsed time < window" is false — yet
`isEligibleForJury` returns `true`, because the source tests
`lastVoteTimestamp + inactivityPenaltyPeriod < now` (strict, so the
boundary instant stays eligible). -/
theorem C8_counterexample :
    isEligibleForJury c8Jury 1 (100 + 15552000) = true ∧
    eligibleSpec c8Jury 1 (100 + 15552000) = false := by
  constructor
  · decide
  · decide

/-- C8 amended: `isEligibleForJury` returns true iff the participant is
registered, Verified, active, meets the reputation and stake floors, and
either has never voted (`lastVoteTimestamp = 0`) or at most the inactivity
window has elapsed since the last vote (inclusive boundary:
`now ≤ lastVote + window`). -/
theorem C8_eligibility_characterization (js : JuryState) (member : Address) (now : Nat) :
    isEligibleForJury js member now = true ↔
      ∃ m, js.juryMembers member = some m ∧ m.status = .Verified ∧ m.isActive = true ∧
        js.minimumReputationForJury ≤ m.reputationScore ∧
        js.minimumStakeForJury ≤ m.stakingAmount ∧
        (m.lastVoteTimestamp = 0 ∨ now ≤ m.lastVoteTimestamp + js.inactivityPenaltyPeriod) := by
  unfold isEligibleForJury
  cases h : js.juryMembers member with
  | none => simp
  | some m =>
    simp only [h, Option.some.injEq]
    constructor
    · intro hb
      refine ⟨m, rfl, ?_⟩
      split at hb
      · exact absurd hb (by simp)
      split at hb
      · exact absurd hb (by simp)
      split at hb
      · exact absurd hb (by simp)
      split at hb
      · exact absurd hb (by simp)
      split at hb
      · exact absurd hb (by simp)
      · rename_i h1 h2 h3 h4 h5
        refine ⟨by simpa using h1, by simpa using h2, by omega, by omega, by omega⟩
    · rintro ⟨m', hm', h1, h2, h3, h4, h5⟩
      cases hm'
      rw [if_neg (by simp [h1]), if_neg (by simp [h2]), if_neg (by omega),
          if_neg (by omega), if_neg (by omega)]

/-! ## Claim C7 -/

/-- Counterexample to C7: hash 77 was marked used by participant 1's
passing check and appears in none of participant 2's prior checkpoints,
yet a passing check of participant 2 with hash 77 succeeds (and verifies
participant 2), because the source's duplicate guard waives the check as
soon as the participant has *any* prior checkpoint — here a failed one
with the unrelated hash 88 — not only when the hash belongs to them. -/
theorem C7_counterexample :
    performSybilCheck c7s0 9 1 77 true 10 = .ok c7s1 ∧
    performSybilCheck c7s1 9 2 88 false 11 = .ok c7s2 ∧
    c7s2.usedIdentityHashes 77 = true ∧
    (c7s2.sybilChecks 2).all (fun cp => cp.identityHash != 77) = true ∧
    ((performSybilCheck c7s2 9 2 77 true 12).toOption.bind
        (fun js => js.juryMembers 2)).map JuryMember.status = some .Verified := by
  refine ⟨rfl, rfl, by decide, by decide, by decide⟩

/-- C7 amended: for an authorized caller and a registered member,
`performSybilCheck` fails with the Duplicate error exactly when the check
passes, the identity-hash is already marked used, and the member has *no
prior checkpoint of any kind* (the exemption is the existence of any prior
checkpoint for this member, not ownership of the hash); otherwise it
succeeds, always appends a checkpoint whatever the `passed` flag, marks a
passing hash used, and a passing check flips an Unverified member to
Verified. -/
theorem C7_sybil_check_characterization (js : JuryState) (caller member : Address)
    (idh : IdHash) (passed : Bool) (now : Nat) (m : JuryMember)
    (hauth : js.isVerifier caller = true ∨ caller = js.contractOwner)
    (hm : js.juryMembers member = some m) :
    (performSybilCheck js caller member idh passed now = .error .duplicateIdentity ↔
       passed = true ∧ js.usedIdentityHashes idh = true ∧ js.sybilChecks member = []) ∧
    (∀ js', performSybilCheck js caller member idh passed now = .ok js' →
       js'.sybilChecks member = js.sybilChecks member ++ [⟨idh, now, caller, passed⟩] ∧
       (passed = true → js'.usedIdentityHashes idh = true) ∧
       (passed = true → m.status = .Unverified →
          (js'.juryMembers member).map JuryMember.status = some .Verified)) := by
  simp only [performSybilCheck, hm]
  rw [if_neg (not_not_intro hauth)]
  constructor
  · constructor
    · intro h
      by_cases hc : passed = true ∧ js.usedIdentityHashes idh = true ∧ js.sybilChecks member = []
      · exact hc
      · rw [if_neg hc] at h
        split at h <;> exact absurd h (by simp)
    · intro hcond
      rw [if_pos hcond]
  · intro js' h
    by_cases hc : passed = true ∧ js.usedIdentityHashes idh = true ∧ js.sybilChecks member = []
    · rw [if_pos hc] at h
      exact absurd h (by simp)
    · rw [if_neg hc] at h
      split at h <;> injection h with h <;> subst h
      · rename_i hflip
        refine ⟨by simp [JuryState.setMember], ?_, ?_⟩
        · intro hp
          subst hp
          simp [JuryState.setMember]
        · intro hp hst
          simp [JuryState.setMember]
      · rename_i hflip
        refine ⟨by simp, ?_, ?_⟩
        · intro hp
          subst hp
          simp
        · intro hp hst
          exact absurd ⟨hp, hst⟩ hflip

/-- Witness for C7 (amended): participant 2 has no prior checkpoint in
`c7s1`, so a passing check with the already-used hash 77 does fail with
the Duplicate error. -/
theorem C7_sybil_check_witness :
    performSybilCheck c7s1 9 2 77 true 12 = .error .duplicateIdentity :=
  (C7_sybil_check_characterization c7s1 9 2 77 true 12 (mkJuror 2 .Unverified)
      (Or.inl (by decide)) (by decide)).1.mpr ⟨rfl, by decide, by decide⟩

/-- Closed form of `_updateReputation`, with the member lookup exposed as
a `match` so that it can be used as a rewrite rule. -/
theorem updateReputationInternal_eq (js : JuryState) (member : Address) (d : Int)
    (reason : String) (ub : Address) (now : Nat) :
    updateReputationInternal js member d reason ub now =
      match js.juryMembers member with
      | none => .error .memberNotRegistered
      | some m =>
        .ok { js.setMember member
                { m with reputationScore := clampRep ((m.reputationScore : Int) + d) } with
              reputationHistory := fun a =>
                if a = member then js.reputationHistory a ++ [⟨now, d, reason, ub⟩]
                else js.reputationHistory a } := by
  unfold updateReputationInternal clampRep
  rfl

/-- Effect of a successful `recordVote` on a registered, not-yet-recorded
member: the member's entry is updated (vote counters, timestamp,
participation list, clamped reputation delta), the duplicate-guard bit is
set, and nothing else in the two maps changes. -/
theorem recordVote_spec (js : JuryState) (caller member : Address) (cid : Nat) (b : Bool)
    (now : Nat) (m : JuryMember) (hm : js.juryMembers member = some m)
    (hv : js.hasVotedOnClaim member cid = false) :
    ∃ js', recordVote js caller member cid b now = .ok js' ∧
      js'.juryMembers member = some { m with
          totalVotes := m.totalVotes + 1,
          consistentVotes := m.consistentVotes + (if b then 1 else 0),
          lastVoteTimestamp := now,
          participatedClaims := m.participatedClaims ++ [cid],
          reputationScore := clampRep ((m.reputationScore : Int) + (if b then 5 else -2)) } ∧
      (∀ a, a ≠ member → js'.juryMembers a = js.juryMembers a) ∧
      js'.hasVotedOnClaim member cid = true ∧
      (∀ a i, ¬ (a = member ∧ i = cid) → js'.hasVotedOnClaim a i = js.hasVotedOnClaim a i) := by
  unfold recordVote
  rw [hm]
  simp only [hv, Bool.false_eq_true, if_false, updateReputationInternal_eq,
    JuryState.setMember]
  cases b <;>
    simp only [Bool.false_eq_true, if_true, if_false, eq_self_iff_true, ite_true] <;>
    refine ⟨_, rfl, by simp, ?_, by simp, ?_⟩ <;>
    first
    | (intro a ha
       simp [ha])
    | (intro a i hai
       simp [hai])

/-- A failing `recordVote` is exactly an unregistered member or a
duplicate vote. -/
theorem recordVote_isOk (js : JuryState) (caller member : Address) (cid : Nat) (b : Bool)
    (now : Nat) :
    (recordVote js caller member cid b now).isOk = true ↔
      (js.juryMembers member).isSome = true ∧ js.hasVotedOnClaim member cid = false := by
  cases hm : js.juryMembers member with
  | none =>
    unfold recordVote
    rw [hm]
    simp [Except.isOk, Except.toBool]
  | some m =>
    cases hv : js.hasVotedOnClaim member cid with
    | true =>
      unfold recordVote
      rw [hm]
      simp [hv, Except.isOk, Except.toBool]
    | false =>
      obtain ⟨js', hok, -⟩ := recordVote_spec js caller member cid b now m hm hv
      rw [hok]
      simp [Except.isOk, Except.toBool, hm]

/-! ## Claim C10 -/

/-- C10: the registry's `updateStake` and `recordVote` enforce no caller
authorization.  `updateStake` gives the same result for every caller and
succeeds exactly when the member is registered, setting the recorded stake
to the new value; `recordVote` accepts or rejects independently of the
caller and succeeds exactly when the member is registered and has no prior
recorded vote for that claim, incrementing the vote counter, stamping the
last-vote time, applying the clamped ±(5/2) reputation delta and marking
the claim voted. -/
theorem C10_registry_no_caller_auth (js : JuryState) (caller caller' member : Address)
    (amt cid : Nat) (b : Bool) (now : Nat) :
    (updateStake js caller member amt = updateStake js caller' member amt) ∧
    ((updateStake js caller member amt).isOk = true ↔ (js.juryMembers member).isSome = true) ∧
    (∀ m, js.juryMembers member = some m →
       updateStake js caller member amt =
         .ok (js.setMember member { m with stakingAmount := amt })) ∧
    ((recordVote js caller member cid b now).isOk =
       (recordVote js caller' member cid b now).isOk) ∧
    ((recordVote js caller member cid b now).isOk = true ↔
       (js.juryMembers member).isSome = true ∧ js.hasVotedOnClaim member cid = false) ∧
    (∀ m js', js.juryMembers member = some m →
       recordVote js caller member cid b now = .ok js' →
       ∃ m', js'.juryMembers member = some m' ∧
         m'.totalVotes = m.totalVotes + 1 ∧ m'.lastVoteTimestamp = now ∧
         m'.reputationScore = clampRep ((m.reputationScore : Int) + (if b then 5 else -2)) ∧
         js'.hasVotedOnClaim member cid = true) := by
  refine ⟨rfl, ?_, ?_, ?_, recordVote_isOk js caller member cid b now, ?_⟩
  · unfold updateStake
    cases h : js.juryMembers member <;> simp [Except.isOk, Except.toBool]
  · intro m hm
    unfold updateStake
    rw [hm]
  · exact Bool.eq_iff_iff.mpr
      ((recordVote_isOk js caller member cid b now).trans
        (recordVote_isOk js caller' member cid b now).symm)
  · intro m js' hm h
    obtain ⟨js'', hok, hmem, -, hset, -⟩ := recordVote_spec js caller member cid b now m hm
      (by
        have := (recordVote_isOk js caller member cid b now).mp (by rw [h]; rfl)
        exact this.2)
    rw [h] at hok
    injection hok with hok
    subst hok
    exact ⟨_, hmem, rfl, rfl, rfl, hset⟩

/-- Witness for C10: concrete calls on the registry of `c10Jury`, from two
unrelated, unprivileged callers 1 and 2. -/
theorem C10_registry_no_caller_auth_witness :
    (updateStake c10Jury 1 3 777 = updateStake c10Jury 2 3 777) ∧
    (updateStake c10Jury 1 3 777 =
       .ok (c10Jury.setMember 3 { mkJuror 3 .Verified with stakingAmount := 777 })) ∧
    (∃ m', c10Voted.juryMembers 3 = some m' ∧
       m'.totalVotes = (mkJuror 3 .Verified).totalVotes + 1 ∧
       m'.lastVoteTimestamp = 99 ∧
       m'.reputationScore =
         clampRep (((mkJuror 3 .Verified).reputationScore : Int) + (if true then 5 else -2)) ∧
       c10Voted.hasVotedOnClaim 3 42 = true) :=
  ⟨(C10_registry_no_caller_auth c10Jury 1 2 3 777 42 true 99).1,
   (C10_registry_no_caller_auth c10Jury 1 2 3 777 42 true 99).2.2.1
     (mkJuror 3 .Verified) (by decide),
   (C10_registry_no_caller_auth c10Jury 1 2 3 777 42 true 99).2.2.2.2.2
     (mkJuror 3 .Verified) c10Voted (by decide) rfl⟩

/-! ## Frame lemmas for the payout and evaluation paths -/

theorem payPawRewards_frame (cid : Nat) (l : List Address) :
    ∀ (s s' : SysState), payPawRewards s cid l = .ok s' →
      s'.pool = s.pool ∧ s'.jury = s.jury ∧ s'.vet = s.vet ∧ s'.guard = s.guard ∧
      s'.pets = s.pets := by
  induction l with
  | nil =>
    intro s s' h
    unfold payPawRewards at h
    injection h with h
    subst h
    exact ⟨rfl, rfl, rfl, rfl, rfl⟩
  | cons j rest ih =>
    intro s s' h
    unfold payPawRewards at h
    split at h
    · split at h
      · exact absurd h (by simp)
      · have hrec := ih _ _ h
        exact hrec
    · exact ih _ _ h

theorem recordVotesLoop_frame (cid : Nat) (ca : Bool) (now : Nat) (l : List Address) :
    ∀ (s s' : SysState), recordVotesLoop s cid ca now l = .ok s' →
      s'.pool = s.pool ∧ s'.guard = s.guard ∧ s'.paw = s.paw ∧ s'.vet = s.vet ∧
      s'.pets = s.pets := by
  induction l with
  | nil =>
    intro s s' h
    unfold recordVotesLoop at h
    injection h with h
    subst h
    exact ⟨rfl, rfl, rfl, rfl, rfl⟩
  | cons j rest ih =>
    intro s s' h
    unfold recordVotesLoop at h
    simp only [] at h
    split at h
    · split at h
      · exact absurd h (by simp)
      · have hrec := ih _ _ h
        exact hrec
    · exact ih _ _ h

/-- `_processPayout` never touches the registry, the three fund buckets,
the vote bookkeeping, or any claim field other than the payout legs. -/
theorem processPayout_frame (s s' : SysState) (cid : Nat)
    (h : processPayout s cid = .ok s') :
    s'.jury = s.jury ∧
    s'.pool.claimHasVoted = s.pool.claimHasVoted ∧
    s'.pool.claimVoteApproved = s.pool.claimVoteApproved ∧
    s'.pool.immediatePayoutPool = s.pool.immediatePayoutPool ∧
    s'.pool.stableYieldPool = s.pool.stableYieldPool ∧
    s'.pool.riskReservePool = s.pool.riskReservePool ∧
    s'.pool.claimIdCounter = s.pool.claimIdCounter ∧
    s'.pool.juryVotingPeriod = s.pool.juryVotingPeriod ∧
    (∀ i, (s'.pool.claims i).status = (s.pool.claims i).status ∧
          (s'.pool.claims i).approveVotes = (s.pool.claims i).approveVotes ∧
          (s'.pool.claims i).rejectVotes = (s.pool.claims i).rejectVotes ∧
          (s'.pool.claims i).juryMembers = (s.pool.claims i).juryMembers ∧
          (s'.pool.claims i).submissionTimestamp = (s.pool.claims i).submissionTimestamp ∧
          (s'.pool.claims i).requestedPayoutAmount = (s.pool.claims i).requestedPayoutAmount) := by
  unfold processPayout at h
  simp only [] at h
  split at h
  · exact absurd h (by simp)
  split at h
  · exact absurd h (by simp)
  split at h
  · exact absurd h (by simp)
  split at h
  · exact absurd h (by simp)
  split at h
  · exact absurd h (by simp)
  · obtain ⟨hp, hj, hv, hg, hpets⟩ := payPawRewards_frame cid _ _ s' h
    rw [hp, hj]
    refine ⟨rfl, rfl, rfl, rfl, rfl, rfl, rfl, rfl, ?_⟩
    intro i
    by_cases hi : i = cid <;> simp [PoolState.setClaim, hi]

/-- `_evaluateClaim` never touches the registry, the buckets, the vote
tallies, the panel, or the deadlines; it can change a claim's status, but
never back to Pending. -/
theorem evaluateClaim_frame (s s' : SysState) (cid now : Nat)
    (h : evaluateClaim s cid now = .ok s') :
    s'.jury = s.jury ∧
    s'.pool.claimHasVoted = s.pool.claimHasVoted ∧
    s'.pool.claimVoteApproved = s.pool.claimVoteApproved ∧
    s'.pool.immediatePayoutPool = s.pool.immediatePayoutPool ∧
    s'.pool.stableYieldPool = s.pool.stableYieldPool ∧
    s'.pool.riskReservePool = s.pool.riskReservePool ∧
    s'.pool.claimIdCounter = s.pool.claimIdCounter ∧
    s'.pool.juryVotingPeriod = s.pool.juryVotingPeriod ∧
    (∀ i, (s'.pool.claims i).approveVotes = (s.pool.claims i).approveVotes ∧
          (s'.pool.claims i).rejectVotes = (s.pool.claims i).rejectVotes ∧
          (s'.pool.claims i).juryMembers = (s.pool.claims i).juryMembers ∧
          (s'.pool.claims i).submissionTimestamp = (s.pool.claims i).submissionTimestamp ∧
          ((s'.pool.claims i).status = .Pending → (s.pool.claims i).status = .Pending)) := by
  unfold evaluateClaim at h
  simp only [] at h
  split at h
  · exact absurd h (by simp)
  split at h
  · injection h with h
    subst h
    exact ⟨rfl, rfl, rfl, rfl, rfl, rfl, rfl, rfl, fun i => ⟨rfl, rfl, rfl, rfl, fun hp => hp⟩⟩
  split at h
  · obtain ⟨hj, hhv, hva, h1, h2, h3, h4, h5, hcl⟩ := processPayout_frame _ s' cid h
    rw [hj, hhv, hva, h1, h2, h3, h4, h5]
    refine ⟨rfl, rfl, rfl, rfl, rfl, rfl, rfl, rfl, ?_⟩
    intro i
    obtain ⟨hst, hav, hrv, hjm, hts, hra⟩ := hcl i
    rw [hst, hav, hrv, hjm, hts]
    by_cases hi : i = cid <;> simp [PoolState.setClaim, hi]
  · injection h with h
    subst h
    refine ⟨rfl, rfl, rfl, rfl, rfl, rfl, rfl, rfl, ?_⟩
    intro i
    by_cases hi : i = cid <;> simp [PoolState.setClaim, hi]

/-! ## Claim C1 -/

/-- C1: whenever `_evaluateClaim` completes and leaves the claim with a
final outcome, that outcome is Approved exactly when
`approveVotes * 3 > (approveVotes + rejectVotes) * 2` over the votes
actually cast, and Rejected exactly otherwise. -/
theorem C1_majority_rule (s s' : SysState) (cid now : Nat)
    (hok : evaluateClaim s cid now = .ok s')
    (hfinal : (s'.pool.claims cid).status = .Approved ∨
              (s'.pool.claims cid).status = .Rejected) :
    ((s'.pool.claims cid).status = .Approved ↔
       (s.pool.claims cid).approveVotes * 3 >
         ((s.pool.claims cid).approveVotes + (s.pool.claims cid).rejectVotes) * 2) ∧
    ((s'.pool.claims cid).status = .Rejected ↔
       ¬ (s.pool.claims cid).approveVotes * 3 >
         ((s.pool.claims cid).approveVotes + (s.pool.claims cid).rejectVotes) * 2) := by
  unfold evaluateClaim at hok
  simp only [] at hok
  split at hok
  · exact absurd hok (by simp)
  rename_i hstatus
  split at hok
  · injection hok with hok
    subst hok
    rw [not_not] at hstatus
    rw [hstatus] at hfinal
    rcases hfinal with hfinal | hfinal <;> exact absurd hfinal (by simp)
  split at hok
  · rename_i hmaj
    obtain ⟨-, -, -, -, -, -, -, -, hcl⟩ := processPayout_frame _ s' cid hok
    have hst : (s'.pool.claims cid).status = .Approved := by
      rw [(hcl cid).1]
      simp [PoolState.setClaim]
    constructor
    · exact iff_of_true hst hmaj
    · refine iff_of_false ?_ (not_not_intro hmaj)
      rw [hst]
      simp
  · rename_i hmaj
    injection hok with hok
    subst hok
    constructor
    · refine iff_of_false ?_ hmaj
      simp [PoolState.setClaim]
    · refine iff_of_true ?_ hmaj
      simp [PoolState.setClaim]

/-- Witness for C1: the spec's two boundary tallies.  With 15 approvals
and 6 rejections evaluation ends Approved; with 14 approvals and 7
rejections it ends Rejected. -/
theorem C1_majority_rule_witness :
    (((c1aFinal.pool.claims 1).status = .Approved ↔ 15 * 3 > (15 + 6) * 2) ∧
     ((c1aFinal.pool.claims 1).status = .Rejected ↔ ¬ 15 * 3 > (15 + 6) * 2)) ∧
    (((c1rFinal.pool.claims 1).status = .Approved ↔ 14 * 3 > (14 + 7) * 2) ∧
     ((c1rFinal.pool.claims 1).status = .Rejected ↔ ¬ 14 * 3 > (14 + 7) * 2)) :=
  ⟨C1_majority_rule (c1State 15 6) c1aFinal 1 5 rfl (Or.inl (by decide)),
   C1_majority_rule (c1State 14 7) c1rFinal 1 5 rfl (Or.inr (by decide))⟩

/-! ## Claim C4 -/

/-- Counterexample to C4: in `c4State` the three fund buckets sum to 0,
below the requested amount 100, yet the payout succeeds (disbursing 80 to
the vet and 20 to the owner), because the source checks the pool
contract's GUARD *token balance* (`balanceOf(address(this))`, here 100
collected e.g. as submission fees), not `immediate + stable + risk`. -/
theorem C4_counterexample :
    poolSum c4State < (c4State.pool.claims 1).requestedPayoutAmount ∧
    processPayout c4State 1 = .ok c4Final ∧
    c4Final.guard 50 = 80 ∧ c4Final.guard 51 = 20 :=
  ⟨by decide, rfl, by decide, by decide⟩

/-- C4 amended: `_processPayout` requires Approved status and a pool GUARD
token balance of at least the requested amount (failing with the
state-error resp. the insufficient-resource error otherwise) — the
three-bucket sum plays no role; on success it disburses `⌊80%⌋` of the
requested amount to the treating vet and the remainder (≈20%) to the claim
owner, atomically (an error leaves no state change, by revert semantics). -/
theorem C4_payout_characterization (s : SysState) (cid : Nat) :
    ((s.pool.claims cid).status ≠ .Approved →
       processPayout s cid = .error .claimNotApproved) ∧
    ((s.pool.claims cid).status = .Approved →
       s.guard poolAddr < (s.pool.claims cid).requestedPayoutAmount →
       processPayout s cid = .error .insufficientGuardInPool) ∧
    (∀ s', processPayout s cid = .ok s' →
       (s.pool.claims cid).treatingVet ≠ poolAddr →
       (s.pool.claims cid).owner ≠ poolAddr →
       (s.pool.claims cid).treatingVet ≠ (s.pool.claims cid).owner →
       (s.pool.claims cid).status = .Approved ∧
       (s.pool.claims cid).requestedPayoutAmount ≤ s.guard poolAddr ∧
       s'.guard (s.pool.claims cid).treatingVet =
         s.guard (s.pool.claims cid).treatingVet +
           (s.pool.claims cid).requestedPayoutAmount * 80 / 100 ∧
       s'.guard (s.pool.claims cid).owner =
         s.guard (s.pool.claims cid).owner +
           ((s.pool.claims cid).requestedPayoutAmount -
              (s.pool.claims cid).requestedPayoutAmount * 80 / 100) ∧
       s'.guard poolAddr =
         s.guard poolAddr - (s.pool.claims cid).requestedPayoutAmount) := by
  refine ⟨?_, ?_, ?_⟩
  · intro hst
    unfold processPayout
    simp only []
    rw [if_pos hst]
  · intro hst hlt
    unfold processPayout
    simp only []
    rw [if_neg (not_not_intro hst), if_pos hlt]
  · intro s' h hvet howner hdiff
    unfold processPayout at h
    simp only [] at h
    split at h
    · exact absurd h (by simp)
    split at h
    · exact absurd h (by simp)
    rename_i hst hge
    rw [not_not] at hst
    rw [not_lt] at hge
    refine ⟨hst, hge, ?_⟩
    split at h
    · exact absurd h (by simp)
    split at h
    · exact absurd h (by simp)
    rename_i x1 g1 hg1 x2 g2 hg2
    split at h
    · exact absurd h (by simp)
    · rename_i v1 hv1
      obtain ⟨-, -, -, hguard, -⟩ := payPawRewards_frame cid _ _ s' h
      rw [hguard]
      unfold transferBal at hg1 hg2
      split at hg1
      · exact absurd hg1 (by simp)
      injection hg1 with hg1
      subst hg1
      split at hg2
      · exact absurd hg2 (by simp)
      injection hg2 with hg2
      subst hg2
      have hdivle : (s.pool.claims cid).requestedPayoutAmount * 80 / 100 ≤
          (s.pool.claims cid).requestedPayoutAmount := by
        have := Nat.div_mul_le_self ((s.pool.claims cid).requestedPayoutAmount * 80) 100
        omega
      refine ⟨?_, ?_, ?_⟩ <;>
        simp [hvet, howner, hdiff, Ne.symm hvet, Ne.symm howner, Ne.symm hdiff] <;>
        omega

/-- Witness for C4 (amended): the concrete payout of claim 1 in `c4State`
(vet 50, owner 51, requested 100). -/
theorem C4_payout_characterization_witness :
    (c4State.pool.claims 1).status = .Approved ∧
    (c4State.pool.claims 1).requestedPayoutAmount ≤ c4State.guard poolAddr ∧
    c4Final.guard 50 = c4State.guard 50 + 100 * 80 / 100 ∧
    c4Final.guard 51 = c4State.guard 51 + (100 - 100 * 80 / 100) ∧
    c4Final.guard poolAddr = c4State.guard poolAddr - 100 :=
  (C4_payout_characterization c4State 1).2.2 c4Final rfl
    (by decide) (by decide) (by decide)

/-! ## Claim C6 -/

/-- Counterexample to C6: one `submitClaim` step from the deployment-like
state `c6Init` reaches a state whose three named balances sum to 0 while
the pool contract actually holds the 10·10¹⁸ GUARD submission fee — the
bucket sum does not track the pool's holdings (fees and payouts bypass the
buckets). -/
theorem C6_counterexample :
    Reachable c6Init c6s1 ∧ ¬ poolSum c6s1 = c6s1.guard poolAddr :=
  ⟨Relation.ReflTransGen.single
      (Step.submitClaim c6Init c6s1 51 1 50 "QmDiag" 100 0 rfl),
   by decide⟩

/-- C6 amended: across every operation of the engine, the three named
balances change only in a successful `payPremium`, whose deposit they
absorb in full; claim-fee collection, payouts, staking and all
registry/token operations leave all three balances untouched.  (The bucket
sum therefore equals cumulative premium deposits, not the pool's actual
GUARD holdings.) -/
theorem C6_bucket_sum_per_step (s s' : SysState) (h : Step s s') :
    (∃ caller petId amount, payPremium s caller petId amount = .ok s' ∧
       poolSum s' = poolSum s + amount) ∨
    (s'.pool.immediatePayoutPool = s.pool.immediatePayoutPool ∧
     s'.pool.stableYieldPool = s.pool.stableYieldPool ∧
     s'.pool.riskReservePool = s.pool.riskReservePool) := by
  cases h with
  | payPremium s' caller petId amount h =>
    exact Or.inl ⟨caller, petId, amount, h,
      (payPremium_pools s s' caller petId amount h).2.2.2⟩
  | submitClaim s' caller petId vetAddr diagnosisHash requested now h =>
    refine Or.inr ?_
    unfold submitClaim at h
    simp only [] at h
    split at h
    · exact absurd h (by simp)
    split at h
    · exact absurd h (by simp)
    split at h
    · exact absurd h (by simp)
    split at h
    · exact absurd h (by simp)
    split at h
    · exact absurd h (by simp)
    split at h
    · exact absurd h (by simp)
    · injection h with h
      subst h
      exact ⟨rfl, rfl, rfl⟩
  | selectJury s' caller cid now h =>
    refine Or.inr ?_
    unfold selectJury at h
    simp only [] at h
    split at h
    · exact absurd h (by simp)
    split at h
    · exact absurd h (by simp)
    split at h
    · exact absurd h (by simp)
    split at h
    · exact absurd h (by simp)
    · injection h with h
      subst h
      exact ⟨rfl, rfl, rfl⟩
  | voteOnClaim s' caller cid approved now h =>
    refine Or.inr ?_
    unfold voteOnClaim at h
    simp only [] at h
    split at h
    · exact absurd h (by simp)
    split at h
    · exact absurd h (by simp)
    split at h
    · exact absurd h (by simp)
    split at h
    · exact absurd h (by simp)
    split at h <;> try split at h
    all_goals
      first
      | (injection h with h
         subst h
         exact ⟨rfl, rfl, rfl⟩)
      | (obtain ⟨-, -, -, h1, h2, h3, -⟩ := evaluateClaim_frame _ s' cid now h
         exact ⟨h1, h2, h3⟩)
  | finalizeClaimVoting s' caller cid now h =>
    refine Or.inr ?_
    unfold finalizeClaimVoting at h
    simp only [] at h
    split at h
    · exact absurd h (by simp)
    split at h
    · exact absurd h (by simp)
    split at h
    · exact absurd h (by simp)
    · rename_i s1 hev
      obtain ⟨hp, -, -, -, -⟩ := recordVotesLoop_frame cid _ now _ _ s' h
      obtain ⟨-, -, -, h1, h2, h3, -⟩ := evaluateClaim_frame _ s1 cid now hev
      rw [hp]
      exact ⟨h1, h2, h3⟩
  | stakePaw s' caller amount h =>
    refine Or.inr ?_
    unfold stakePaw at h
    simp only [] at h
    split at h
    · exact absurd h (by simp)
    split at h
    · exact absurd h (by simp)
    split at h
    · exact absurd h (by simp)
    · injection h with h
      subst h
      exact ⟨rfl, rfl, rfl⟩
  | unstakePaw s' caller amount h =>
    refine Or.inr ?_
    unfold unstakePaw at h
    simp only [] at h
    split at h
    · exact absurd h (by simp)
    split at h
    · exact absurd h (by simp)
    split at h
    · exact absurd h (by simp)
    split at h
    · exact absurd h (by simp)
    · injection h with h
      subst h
      exact ⟨rfl, rfl, rfl⟩
  | registryOp j' v' =>
    exact Or.inr ⟨rfl, rfl, rfl⟩
  | tokenOp g' p' =>
    exact Or.inr ⟨rfl, rfl, rfl⟩

/-- Witness for C6 (amended): applied to the concrete submit-claim step. -/
theorem C6_bucket_sum_per_step_witness :
    (∃ caller petId amount, payPremium c6Init caller petId amount = .ok c6s1 ∧
       poolSum c6s1 = poolSum c6Init + amount) ∨
    (c6s1.pool.immediatePayoutPool = c6Init.pool.immediatePayoutPool ∧
     c6s1.pool.stableYieldPool = c6Init.pool.stableYieldPool ∧
     c6s1.pool.riskReservePool = c6Init.pool.riskReservePool) :=
  C6_bucket_sum_per_step c6Init c6s1
    (Step.submitClaim c6Init c6s1 51 1 50 "QmDiag" 100 0 rfl)

/-! ## Claim C2 -/

/-- What the `finalizeClaimVoting` feedback loop does to the registry:
every listed panel member who cast a vote receives exactly one
`recordVote` whose majority flag compares their recorded ballot with the
outcome flag, and registry entries of addresses outside the list are
untouched. -/
theorem recordVotesLoop_feedback (cid : Nat) (ca : Bool) (now : Nat) (l : List Address) :
    ∀ (s s' : SysState),
      l.Nodup →
      (∀ j ∈ l, (s.jury.juryMembers j).isSome = true ∧
          s.jury.hasVotedOnClaim j cid = false) →
      recordVotesLoop s cid ca now l = .ok s' →
      (∀ a, a ∉ l → s'.jury.juryMembers a = s.jury.juryMembers a ∧
          (∀ i, s'.jury.hasVotedOnClaim a i = s.jury.hasVotedOnClaim a i)) ∧
      (∀ j ∈ l, s.pool.claimHasVoted cid j = true →
         s'.jury.hasVotedOnClaim j cid = true ∧
         ∃ m m', s.jury.juryMembers j = some m ∧ s'.jury.juryMembers j = some m' ∧
           m'.totalVotes = m.totalVotes + 1 ∧
           m'.lastVoteTimestamp = now ∧
           m'.reputationScore = clampRep ((m.reputationScore : Int) +
             (if s.pool.claimVoteApproved cid j = ca then 5 else -2))) := by
  induction l with
  | nil =>
    intro s s' hnd hreg h
    unfold recordVotesLoop at h
    injection h with h
    subst h
    exact ⟨fun a ha => ⟨rfl, fun i => rfl⟩, fun j hj => absurd hj (List.not_mem_nil j)⟩
  | cons j0 rest ih =>
    intro s s' hnd hreg h
    unfold recordVotesLoop at h
    simp only [] at h
    rw [List.nodup_cons] at hnd
    split at h
    · rename_i hvoted
      split at h
      · exact absurd h (by simp)
      · rename_i x jr hrec
        obtain ⟨hm0, hv0⟩ := hreg j0 (List.mem_cons_self j0 rest)
        obtain ⟨m0, hm0eq⟩ := Option.isSome_iff_exists.mp hm0
        obtain ⟨jr', hok', hmem', hframe', hset', hsetframe'⟩ :=
          recordVote_spec s.jury poolAddr j0 cid _ now m0 hm0eq hv0
        rw [hok'] at hrec
        injection hrec with hrec
        subst hrec
        have hreg2 : ∀ a ∈ rest,
            (jr'.juryMembers a).isSome = true ∧ jr'.hasVotedOnClaim a cid = false := by
          intro a ha
          have hane : a ≠ j0 := fun hcontra => hnd.1 (hcontra ▸ ha)
          obtain ⟨hr1, hr2⟩ := hreg a (List.mem_cons_of_mem j0 ha)
          rw [hframe' a hane, hsetframe' a cid (by simp [hane])]
          exact ⟨hr1, hr2⟩
        obtain ⟨hfr, hfb⟩ := ih _ s' hnd.2 hreg2 h
        constructor
        · intro a ha
          rw [List.mem_cons, not_or] at ha
          obtain ⟨hfr1, hfr2⟩ := hfr a ha.2
          refine ⟨?_, ?_⟩
          · rw [hfr1]
            exact hframe' a ha.1
          · intro i
            rw [hfr2 i]
            exact hsetframe' a i (by simp [ha.1])
        · intro j hjmem hjvoted
          rcases List.mem_cons.mp hjmem with hj0 | hjr
          · subst hj0
            obtain ⟨hfr1, hfr2⟩ := hfr j hnd.1
            refine ⟨by rw [hfr2 cid]; exact hset', m0, _, hm0eq, by rw [hfr1]; exact hmem',
              rfl, rfl, ?_⟩
            by_cases hb : s.pool.claimVoteApproved cid j = ca <;> simp [hb]
          · have := hfb j hjr hjvoted
            obtain ⟨hc1, m, m', hm, hm', hc3, hc4, hc5⟩ := this
            have hjne : j ≠ j0 := fun hcontra => hnd.1 (hcontra ▸ hjr)
            rw [hframe' j hjne] at hm
            exact ⟨hc1, m, m', hm, hm', hc3, hc4, hc5⟩
    · rename_i hnotvoted
      obtain ⟨hfr, hfb⟩ := ih _ s' hnd.2
        (fun a ha => hreg a (List.mem_cons_of_mem j0 ha)) h
      constructor
      · intro a ha
        rw [List.mem_cons, not_or] at ha
        exact hfr a ha.2
      · intro j hjmem hjvoted
        rcases List.mem_cons.mp hjmem with hj0 | hjr
        · subst hj0
          exact absurd hjvoted (by simp [hnotvoted])
        · exact hfb j hjr hjvoted

/-- Counterexample to C2: running the end-to-end scenario itself — the
frozen 21-member panel of claim 1 casts 15 approve and 6 reject votes —
the 21st ballot triggers evaluation inside `voteOnClaim`, the claim ends
Approved and the payout runs, but *no* vote is fed back into the
Eligibility Registry: approving panelist 1 still has `totalVotes = 0`,
reputation 500 (not 505), and no registry duplicate-guard bit; a
subsequent `finalizeClaimVoting` (the scenario's final step) reverts
because the claim is no longer InReview, so the feedback can never happen
for this claim. -/
theorem C2_counterexample :
    (voteAll c2State 1 5 c2Votes).map (fun s =>
        ((s.pool.claims 1).status,
         (s.jury.juryMembers 1).map (fun m => (m.totalVotes, m.reputationScore)),
         s.jury.hasVotedOnClaim 1 1,
         (finalizeClaimVoting s 99 1 300000).isOk))
      = .ok (.Approved, some (0, 500), false, false) := by rfl

/-- C2 amended: vote feedback happens only on the `finalizeClaimVoting`
path (window elapsed, claim still InReview).  Whenever that call succeeds,
every panel member who cast a vote has it fed into the registry's
`recordVote` with `votedWithMajority = (their vote == the final outcome)`:
their vote counter grows by one and their reputation moves by the clamped
delta (+5 when aligned with the outcome, −2 otherwise).  When instead the
vote reaching the full panel size triggers evaluation, no feedback occurs
(see the counterexample). -/
theorem C2_vote_feedback_on_finalize (s s' : SysState) (caller : Address) (cid now : Nat)
    (j : Address)
    (hfin : finalizeClaimVoting s caller cid now = .ok s')
    (hnodup : (s.pool.claims cid).juryMembers.Nodup)
    (hreg : ∀ a ∈ (s.pool.claims cid).juryMembers,
        (s.jury.juryMembers a).isSome = true ∧ s.jury.hasVotedOnClaim a cid = false)
    (hj : j ∈ (s.pool.claims cid).juryMembers)
    (hvoted : s.pool.claimHasVoted cid j = true) :
    s'.jury.hasVotedOnClaim j cid = true ∧
    ∃ m m', s.jury.juryMembers j = some m ∧ s'.jury.juryMembers j = some m' ∧
      m'.totalVotes = m.totalVotes + 1 ∧
      m'.lastVoteTimestamp = now ∧
      m'.reputationScore = clampRep ((m.reputationScore : Int) +
        (if s.pool.claimVoteApproved cid j =
             decide ((s'.pool.claims cid).status = .Approved) then 5 else -2)) := by
  unfold finalizeClaimVoting at hfin
  simp only [] at hfin
  split at hfin
  · exact absurd hfin (by simp)
  split at hfin
  · exact absurd hfin (by simp)
  split at hfin
  · exact absurd hfin (by simp)
  · rename_i x s1 hev
    obtain ⟨hjury, hhv, hva, -, -, -, -, -, hcl⟩ := evaluateClaim_frame s s1 cid now hev
    obtain ⟨-, -, hjm, -, -⟩ := hcl cid
    obtain ⟨hpool1, -, -, -, -⟩ := recordVotesLoop_frame cid _ now _ _ s' hfin
    obtain ⟨-, hfb⟩ := recordVotesLoop_feedback cid _ now _ s1 s'
      (by rw [hjm]; exact hnodup)
      (by
        intro a ha
        rw [hjm] at ha
        rw [hjury]
        exact hreg a ha)
      hfin
    have hj1 : j ∈ (s1.pool.claims cid).juryMembers := by rw [hjm]; exact hj
    have hvoted1 : s1.pool.claimHasVoted cid j = true := by rw [hhv]; exact hvoted
    obtain ⟨hc1, m, m', hm, hm', hc3, hc4, hc5⟩ := hfb j hj1 hvoted1
    rw [hjury] at hm
    rw [hva] at hc5
    rw [hpool1]
    exact ⟨hc1, m, m', hm, hm', hc3, hc4, hc5⟩

/-- Witness for C2 (amended): partial turnout on claim 1 — 15 approvals,
5 rejections, juror 21 abstains — then `finalizeClaimVoting` one second
after the window.  The claim ends Approved; approving juror 1 is recorded
and climbs 500 → 505, rejecting juror 16 drops to 498. -/
theorem C2_vote_feedback_on_finalize_witness :
    (c2bFinal.jury.hasVotedOnClaim 1 1 = true ∧
     ∃ m m', c2bVoted.jury.juryMembers 1 = some m ∧ c2bFinal.jury.juryMembers 1 = some m' ∧
       m'.totalVotes = m.totalVotes + 1 ∧
       m'.lastVoteTimestamp = 259201 ∧
       m'.reputationScore = clampRep ((m.reputationScore : Int) +
         (if c2bVoted.pool.claimVoteApproved 1 1 =
              decide ((c2bFinal.pool.claims 1).status = .Approved) then 5 else -2))) ∧
    (c2bFinal.jury.juryMembers 1).map JuryMember.reputationScore = some 505 ∧
    (c2bFinal.jury.juryMembers 16).map JuryMember.reputationScore = some 498 ∧
    (c2bFinal.pool.claims 1).status = .Approved :=
  ⟨C2_vote_feedback_on_finalize c2bVoted c2bFinal 99 1 259201 1 rfl (by decide) (by decide)
     (by decide) (by decide),
   by decide, by decide, by decide⟩

/-! ## Claim C9 -/

/-- A successful `voteOnClaim` implies all four of its guards held. -/
theorem voteOnClaim_ok_preconds (s s' : SysState) (caller : Address) (cid : Nat)
    (approved : Bool) (now : Nat)
    (h : voteOnClaim s caller cid approved now = .ok s') :
    (s.pool.claims cid).status = .InReview ∧
    now ≤ (s.pool.claims cid).submissionTimestamp + s.pool.juryVotingPeriod ∧
    caller ∈ (s.pool.claims cid).juryMembers ∧
    s.pool.claimHasVoted cid caller = false := by
  unfold voteOnClaim at h
  simp only [] at h
  split at h
  · exact absurd h (by simp)
  rename_i h1
  split at h
  · exact absurd h (by simp)
  rename_i h2
  split at h
  · exact absurd h (by simp)
  rename_i h3
  split at h
  · exact absurd h (by simp)
  rename_i h4
  exact ⟨by simpa using h1, by simpa using h2, by simpa using h3, by simpa using h4⟩

/-- Flipping one listed element of a `Bool`-predicate from false to true
grows the filtered length by at least one (on duplicate-free lists). -/
theorem length_filter_update (x : Address) (p q : Address → Bool)
    (hq : ∀ a, q a = if a = x then true else p a) :
    ∀ (l : List Address), l.Nodup → x ∈ l → p x = false →
      (l.filter p).length + 1 ≤ (l.filter q).length := by
  intro l
  induction l with
  | nil =>
    intro _ hx _
    exact absurd hx (List.not_mem_nil x)
  | cons y t iht =>
    intro hnd hx hp
    rw [List.nodup_cons] at hnd
    rcases List.mem_cons.mp hx with hyx | hxt
    · subst hyx
      have hqx : q x = true := by rw [hq]; simp
      have htq : t.filter q = t.filter p := by
        apply List.filter_congr
        intro a ha
        rw [hq]
        have hax : ¬ a = x := fun hc => hnd.1 (hc ▸ ha)
        simp [hax]
      rw [List.filter_cons, List.filter_cons, hqx, hp, htq]
      simp
    · have hyne : ¬ y = x := fun hc => hnd.1 (hc ▸ hxt)
      have hqy : q y = p y := by rw [hq]; simp [hyne]
      rw [List.filter_cons, List.filter_cons, hqy]
      have hrec := iht hnd.2 hxt hp
      cases hpy : p y <;> simp [hpy] <;> omega

/-- `voteInv` only looks at the pool, so it transports along pool-field
equalities. -/
theorem voteInv_of_eq (s s' : SysState)
    (hc : s'.pool.claims = s.pool.claims)
    (hv : s'.pool.claimHasVoted = s.pool.claimHasVoted)
    (h0 : voteInv s) : voteInv s' := by
  intro i
  rw [hc, hv]
  exact h0 i

/-- `voteInv` is preserved by recording one fresh vote of a panel member
(the shape of the `voteOnClaim` state update). -/
theorem voteInv_vote_update (s : SysState) (s1 : SysState) (cid : Nat) (caller : Address)
    (h0 : voteInv s)
    (hclaims : ∀ i, i ≠ cid → s1.pool.claims i = s.pool.claims i)
    (hvotes : (s1.pool.claims cid).approveVotes + (s1.pool.claims cid).rejectVotes =
              (s.pool.claims cid).approveVotes + (s.pool.claims cid).rejectVotes + 1)
    (hjury : (s1.pool.claims cid).juryMembers = (s.pool.claims cid).juryMembers)
    (hstatus : (s1.pool.claims cid).status = (s.pool.claims cid).status)
    (hhv : ∀ i a, s1.pool.claimHasVoted i a =
        if i = cid ∧ a = caller then true else s.pool.claimHasVoted i a)
    (hmem : caller ∈ (s.pool.claims cid).juryMembers)
    (hnotvoted : s.pool.claimHasVoted cid caller = false)
    (hinreview : (s.pool.claims cid).status = .InReview) :
    voteInv s1 := by
  intro i
  by_cases hi : i = cid
  · subst hi
    constructor
    · rw [hvotes, hjury]
      have hkey := length_filter_update caller
        (fun a => s.pool.claimHasVoted i a)
        (fun a => s1.pool.claimHasVoted i a)
        (by
          intro a
          show s1.pool.claimHasVoted i a =
            if a = caller then true else s.pool.claimHasVoted i a
          rw [hhv i a]
          by_cases hac : a = caller <;> simp [hac])
        ((s.pool.claims i).juryMembers.dedup) (List.nodup_dedup _)
        (List.mem_dedup.mpr hmem) (by simpa using hnotvoted)
      have hold := (h0 i).1
      omega
    · intro hpend
      rw [hstatus, hinreview] at hpend
      exact absurd hpend (by simp)
  · obtain ⟨ha, hb⟩ := h0 i
    have hfeq : ((s.pool.claims i).juryMembers.dedup).filter
          (fun a => s1.pool.claimHasVoted i a)
        = ((s.pool.claims i).juryMembers.dedup).filter
          (fun a => s.pool.claimHasVoted i a) := by
      apply List.filter_congr
      intro a _
      rw [hhv i a]
      simp [hi]
    rw [hclaims i hi, hfeq]
    exact ⟨ha, hb⟩

/-- `voteInv` is preserved by `_evaluateClaim`. -/
theorem voteInv_evaluateClaim (s s' : SysState) (cid now : Nat)
    (h : evaluateClaim s cid now = .ok s') (h0 : voteInv s) : voteInv s' := by
  obtain ⟨-, hhv, -, -, -, -, -, -, hcl⟩ := evaluateClaim_frame s s' cid now h
  intro i
  obtain ⟨hav, hrv, hjm, -, hstp⟩ := hcl i
  rw [hhv, hav, hrv, hjm]
  exact ⟨(h0 i).1, fun hp => (h0 i).2 (hstp hp)⟩

/-- `voteInv` is preserved by the state update of `submitClaim` (the fresh
claim starts with zero tallies). -/
theorem voteInv_submit_update (s s1 : SysState) (newId : Nat)
    (hhv : s1.pool.claimHasVoted = s.pool.claimHasVoted)
    (hclaims : ∀ i, i ≠ newId → s1.pool.claims i = s.pool.claims i)
    (hav : (s1.pool.claims newId).approveVotes = 0)
    (hrv : (s1.pool.claims newId).rejectVotes = 0)
    (h0 : voteInv s) : voteInv s1 := by
  intro i
  by_cases hi : i = newId
  · subst hi
    rw [hav, hrv]
    exact ⟨Nat.zero_le _, fun _ => rfl⟩
  · rw [hhv, hclaims i hi]
    exact h0 i

/-- `voteInv` is preserved by the state update of `selectJury` (panel
freezing keeps the zero tallies of the Pending claim). -/
theorem voteInv_select_update (s s1 : SysState) (cid : Nat)
    (hhv : s1.pool.claimHasVoted = s.pool.claimHasVoted)
    (hclaims : ∀ i, i ≠ cid → s1.pool.claims i = s.pool.claims i)
    (hav : (s1.pool.claims cid).approveVotes = (s.pool.claims cid).approveVotes)
    (hrv : (s1.pool.claims cid).rejectVotes = (s.pool.claims cid).rejectVotes)
    (hstatus : (s1.pool.claims cid).status = .InReview)
    (hpend : (s.pool.claims cid).status = .Pending)
    (h0 : voteInv s) : voteInv s1 := by
  intro i
  by_cases hi : i = cid
  · subst hi
    have hz := (h0 i).2 hpend
    constructor
    · rw [hav, hrv]
      omega
    · intro hcontra
      rw [hstatus] at hcontra
      exact absurd hcontra (by simp)
  · rw [hhv, hclaims i hi]
    exact h0 i

/-- Every engine operation preserves the vote-accounting invariant. -/
theorem voteInv_step (s s' : SysState) (h : Step s s') (h0 : voteInv s) : voteInv s' := by
  cases h with
  | payPremium s' caller petId amount h =>
    unfold payPremium at h
    simp only [] at h
    split at h
    · exact absurd h (by simp)
    split at h
    · exact absurd h (by simp)
    split at h
    · exact absurd h (by simp)
    split at h
    · exact absurd h (by simp)
    · injection h with h
      subst h
      exact voteInv_of_eq s _ rfl rfl h0
  | submitClaim s' caller petId vetAddr diagnosisHash requested now h =>
    unfold submitClaim at h
    simp only [] at h
    split at h
    · exact absurd h (by simp)
    split at h
    · exact absurd h (by simp)
    split at h
    · exact absurd h (by simp)
    split at h
    · exact absurd h (by simp)
    split at h
    · exact absurd h (by simp)
    split at h
    · exact absurd h (by simp)
    · injection h with h
      subst h
      exact voteInv_submit_update s _ (s.pool.claimIdCounter + 1) rfl
        (fun i hi => by simp [PoolState.setClaim, hi])
        (by simp [PoolState.setClaim])
        (by simp [PoolState.setClaim])
        h0
  | selectJury s' caller cid now h =>
    unfold selectJury at h
    simp only [] at h
    split at h
    · exact absurd h (by simp)
    split at h
    · exact absurd h (by simp)
    rename_i hpend
    split at h
    · exact absurd h (by simp)
    split at h
    · exact absurd h (by simp)
    · injection h with h
      subst h
      exact voteInv_select_update s _ cid rfl
        (fun i hi => by simp [PoolState.setClaim, hi])
        (by simp [PoolState.setClaim])
        (by simp [PoolState.setClaim])
        (by simp [PoolState.setClaim])
        (by simpa using hpend)
        h0
  | voteOnClaim s' caller cid approved now h =>
    unfold voteOnClaim at h
    simp only [] at h
    split at h
    · exact absurd h (by simp)
    rename_i h1
    split at h
    · exact absurd h (by simp)
    rename_i h2
    split at h
    · exact absurd h (by simp)
    rename_i h3
    split at h
    · exact absurd h (by simp)
    rename_i h4
    split at h <;> try split at h
    all_goals
      first
      | (injection h with h
         subst h
         refine voteInv_vote_update s _ cid caller h0
           (fun i hi => by simp [PoolState.setClaim, hi])
           (by simp [PoolState.setClaim]; try omega)
           (by simp [PoolState.setClaim])
           (by simp [PoolState.setClaim])
           (fun i a => rfl)
           (by simpa using h3)
           (by simpa using h4)
           (by simpa using h1))
      | (refine voteInv_evaluateClaim _ _ cid now h ?_
         refine voteInv_vote_update s _ cid caller h0
           (fun i hi => by simp [PoolState.setClaim, hi])
           (by simp [PoolState.setClaim]; try omega)
           (by simp [PoolState.setClaim])
           (by simp [PoolState.setClaim])
           (fun i a => rfl)
           (by simpa using h3)
           (by simpa using h4)
           (by simpa using h1))
  | finalizeClaimVoting s' caller cid now h =>
    unfold finalizeClaimVoting at h
    simp only [] at h
    split at h
    · exact absurd h (by simp)
    split at h
    · exact absurd h (by simp)
    split at h
    · exact absurd h (by simp)
    · rename_i x s1 hev
      obtain ⟨hpool1, -, -, -, -⟩ := recordVotesLoop_frame cid _ now _ _ s' h
      exact voteInv_of_eq s1 s' (by rw [hpool1]) (by rw [hpool1])
        (voteInv_evaluateClaim s s1 cid now hev h0)
  | stakePaw s' caller amount h =>
    unfold stakePaw at h
    simp only [] at h
    split at h
    · exact absurd h (by simp)
    split at h
    · exact absurd h (by simp)
    split at h
    · exact absurd h (by simp)
    · injection h with h
      subst h
      exact voteInv_of_eq s _ rfl rfl h0
  | unstakePaw s' caller amount h =>
    unfold unstakePaw at h
    simp only [] at h
    split at h
    · exact absurd h (by simp)
    split at h
    · exact absurd h (by simp)
    split at h
    · exact absurd h (by simp)
    split at h
    · exact absurd h (by simp)
    · injection h with h
      subst h
      exact voteInv_of_eq s _ rfl rfl h0
  | registryOp j' v' =>
    exact voteInv_of_eq s _ rfl rfl h0
  | tokenOp g' p' =>
    exact voteInv_of_eq s _ rfl rfl h0

/-- The vote-accounting invariant holds in every reachable state. -/
theorem voteInv_reachable (s0 s : SysState) (h0 : voteInv s0) (hr : Reachable s0 s) :
    voteInv s := by
  induction hr with
  | refl => exact h0
  | tail hsteps hstep ih => exact voteInv_step _ _ hstep ih

/-- C9: `voteOnClaim` succeeds only on an InReview claim, inside the
3-day voting window, for a frozen panel member who has not voted on that
claim; consequently, in every reachable state every claim's tally
satisfies `approveVotes + rejectVotes ≤` the number of distinct panel
members recorded as having voted (no double counting) `≤` the panel
size. -/
theorem C9_vote_guards_and_bounds (s0 s : SysState) (h0 : voteInv s0)
    (hr : Reachable s0 s) :
    (∀ (caller : Address) (cid : Nat) (approved : Bool) (now : Nat) (s' : SysState),
        voteOnClaim s caller cid approved now = .ok s' →
          (s.pool.claims cid).status = .InReview ∧
          now ≤ (s.pool.claims cid).submissionTimestamp + s.pool.juryVotingPeriod ∧
          caller ∈ (s.pool.claims cid).juryMembers ∧
          s.pool.claimHasVoted cid caller = false) ∧
    (∀ cid : Nat,
        (s.pool.claims cid).approveVotes + (s.pool.claims cid).rejectVotes ≤
          (((s.pool.claims cid).juryMembers.dedup).filter
             (fun a => s.pool.claimHasVoted cid a)).length ∧
        (s.pool.claims cid).approveVotes + (s.pool.claims cid).rejectVotes ≤
          (s.pool.claims cid).juryMembers.length) := by
  have hinv := voteInv_reachable s0 s h0 hr
  refine ⟨fun caller cid approved now s' h =>
      voteOnClaim_ok_preconds s s' caller cid approved now h, ?_⟩
  intro cid
  refine ⟨(hinv cid).1, ?_⟩
  calc (s.pool.claims cid).approveVotes + (s.pool.claims cid).rejectVotes
      ≤ (((s.pool.claims cid).juryMembers.dedup).filter
           (fun a => s.pool.claimHasVoted cid a)).length := (hinv cid).1
    _ ≤ ((s.pool.claims cid).juryMembers.dedup).length :=
          List.length_filter_le _ _
    _ ≤ (s.pool.claims cid).juryMembers.length :=
          (List.dedup_sublist _).length_le

/-- The invariant holds in the concrete post-selection state `c2State`. -/
theorem voteInv_c2State : voteInv c2State := by
  intro cid
  by_cases hc : cid = 1 <;>
    simp [c2State, basePool, c2Claim, emptyClaim, hc]

/-- Witness for C9: at `c2State` (fresh InReview claim 1 with its frozen
21-member panel), juror 1's first vote succeeds, so all four guards held,
and the tallies obey both bounds. -/
theorem C9_vote_guards_and_bounds_witness :
    ((c2State.pool.claims 1).status = .InReview ∧
     5 ≤ (c2State.pool.claims 1).submissionTimestamp + c2State.pool.juryVotingPeriod ∧
     1 ∈ (c2State.pool.claims 1).juryMembers ∧
     c2State.pool.claimHasVoted 1 1 = false) ∧
    ((c2State.pool.claims 1).approveVotes + (c2State.pool.claims 1).rejectVotes ≤
       (((c2State.pool.claims 1).juryMembers.dedup).filter
          (fun a => c2State.pool.claimHasVoted 1 a)).length ∧
     (c2State.pool.claims 1).approveVotes + (c2State.pool.claims 1).rejectVotes ≤
       (c2State.pool.claims 1).juryMembers.length) :=
  ⟨(C9_vote_guards_and_bounds c2State c2State voteInv_c2State .refl).1 1 1 true 5
      c9Voted rfl,
   (C9_vote_guards_and_bounds c2State c2State voteInv_c2State .refl).2 1⟩

end PawGuard
